import Mathlib

/-!
Shallow embedding of the `async-osc` crate (src/udp.rs, src/osc.rs,
src/error.rs, src/message.rs) and proofs about its claims.

Byte buffers are `List Nat`; the asynchronous receive future of
`UdpSocketStream` is modelled by the buffer it owns; completion of the
in-flight receive is driven by an explicit event (`PollEv`).  A panic
(`Option::unwrap` on `None`) is modelled by returning `none` from the
poll function.
-/

namespace AsyncOsc

/-- Subset of `std::io::ErrorKind` used by the crate. -/
inductive IoErrorKind where
  | interrupted
  | other
deriving DecidableEq, Repr

/-- Model of `std::io::Error`: a kind and a message. -/
structure IoError where
  kind : IoErrorKind
  msg : String
deriving DecidableEq, Repr

/-- Model of `rosc::OscError` (opaque decode/encode error). -/
structure OscError where
  msg : String
deriving DecidableEq, Repr

/-- Model of `std::net::SocketAddr` (opaque at this layer). -/
structure SocketAddr where
  ip : Nat
  port : Nat
deriving DecidableEq, Repr

/-- Model of `rosc::OscTime` (an NTP timestamp). -/
structure OscTime where
  seconds : Nat
  fractional : Nat
deriving DecidableEq, Repr

/-- Model of `rosc::OscType`: typed OSC arguments.  Floating-point
payloads are carried opaquely as their bit patterns; the crate never
computes with them. -/
inductive OscType where
  | int (v : Int)
  | float (bits : Nat)
  | string (v : String)
  | blob (v : List Nat)
  | time (v : OscTime)
  | long (v : Int)
  | double (bits : Nat)
  | bool (v : Bool)
  | nil
deriving DecidableEq, Repr

/-- Model of `rosc::OscMessage`: an address and typed arguments. -/
structure OscMessage where
  addr : String
  args : List OscType
deriving DecidableEq, Repr

mutual
/-- Model of `rosc::OscPacket`. -/
inductive OscPacket where
  | message (m : OscMessage)
  | bundle (b : OscBundle)
/-- Model of `rosc::OscBundle`: a timetag and nested packets. -/
inductive OscBundle where
  | mk (timetag : OscTime) (content : List OscPacket)
end

/-- `error.rs`: the crate's error type (`Io` from `std::io::Error`,
`Osc` from `rosc::OscError`).  Neither variant carries an address. -/
inductive Error where
  | io (e : IoError)
  | osc (e : OscError)
deriving DecidableEq, Repr

/-! ## udp.rs -/

/-- Number of bytes a UDP `recv_from` into `buf` reports for an arriving
datagram `d`: at most the buffer's length (excess bytes are discarded). -/
def recvLen (buf d : List Nat) : Nat := min d.length buf.length

/-- Contents of `buf` after the transport writes datagram `d` into its
first `recvLen buf d` bytes. -/
def recvWrite (buf d : List Nat) : List Nat :=
  d.take (recvLen buf d) ++ buf.drop (recvLen buf d)

/-- An event completing the in-flight receive: either the transport
reports an IO error, or a datagram `dgram` arrives from `addr`. -/
inductive RecvEvent where
  | err (e : IoError)
  | ok (dgram : List Nat) (addr : SocketAddr)

/-- `recv_next` (udp.rs): awaits `socket.recv_from(&mut buf)`; on error
returns the error (dropping the buffer), on success returns the written
buffer, the byte count and the sender address. -/
def recv_next (buf : List Nat) (ev : RecvEvent) :
    Except IoError (List Nat × Nat × SocketAddr) :=
  match ev with
  | .err e => .error e
  | .ok d addr => .ok (recvWrite buf d, recvLen buf d, addr)

/-- `UdpSocketStream` (udp.rs): `fut` is the in-flight receive future,
modelled by the buffer it owns; `buf` is the stored buffer. -/
structure UdpSocketStream where
  fut : Option (List Nat)
  buf : Option (List Nat)
deriving DecidableEq, Repr

/-- `UdpSocketStream::from_arc`: stores a fresh zeroed buffer of
`1024 * 64` bytes, with no receive in flight. -/
def from_arc : UdpSocketStream :=
  { fut := none, buf := some (List.replicate (1024 * 64) 0) }

/-- What one call to `poll_next` observes about the in-flight future:
still pending, or ready with a completion event. -/
inductive PollEv where
  | pending
  | ready (ev : RecvEvent)

/-- Result of a `poll_next` call on the UDP stream
(`Poll<Option<io::Result<(Vec<u8>, SocketAddr)>>>`). -/
inductive UdpPoll where
  | pending
  | ready (item : Option (Except IoError (List Nat × SocketAddr)))

/-- Body of the `if let Some(f) = &mut self.fut` block of
`UdpSocketStream::poll_next`: poll the future holding buffer `b`; on
`Ready`, clear `fut`; on error yield the error without restoring any
buffer; on success copy out the first `n` bytes as a fresh vector,
store the buffer back, and yield the copy with the sender address. -/
def drive (s : UdpSocketStream) (b : List Nat) (pev : PollEv) :
    UdpSocketStream × UdpPoll :=
  match pev with
  | .pending => (s, .pending)
  | .ready ev =>
    match recv_next b ev with
    | .error e => ({ s with fut := none }, .ready (some (.error e)))
    | .ok (b2, n, addr) =>
        ({ fut := none, buf := some b2 }, .ready (some (.ok (b2.take n, addr))))

/-- `UdpSocketStream::poll_next` (udp.rs).  If no future is in flight,
`self.buf.take().unwrap()` checks the stored buffer out — panicking
(modelled as `none`) when no buffer is stored — and a new receive is
started with it; the in-flight future is then polled via `drive`. -/
def poll_next (s : UdpSocketStream) (pev : PollEv) :
    Option (UdpSocketStream × UdpPoll) :=
  match s.fut with
  | some b => some (drive s b pev)
  | none =>
    match s.buf with
    | none => none
    | some b => some (drive { fut := some b, buf := none } b pev)

/-- States of `UdpSocketStream` reachable from `from_arc` by completed
(non-panicking) `poll_next` calls. -/
inductive Reachable : UdpSocketStream → Prop where
  | init : Reachable from_arc
  | step (s s' : UdpSocketStream) (pev : PollEv) (p : UdpPoll) :
      Reachable s → poll_next s pev = some (s', p) → Reachable s'

/-! ## osc.rs -/

/-- The per-item mapping of `OscSocket::poll_next`: IO errors pass
through as `Error::Io`; received bytes are fed to the external decoder,
a decode failure becomes `Error::Osc` (the sender address is not kept),
a decode success is paired with the sender address. -/
def osc_map_item (decode : List Nat → Except OscError OscPacket)
    (item : Option (Except IoError (List Nat × SocketAddr))) :
    Option (Except Error (OscPacket × SocketAddr)) :=
  match item with
  | none => none
  | some (.error e) => some (.error (.io e))
  | some (.ok (buf, peer_addr)) =>
      some (((decode buf).mapError Error.osc).map (fun p => (p, peer_addr)))

/-- Result of a `poll_next` call on `OscSocket`. -/
inductive OscPoll where
  | pending
  | ready (item : Option (Except Error (OscPacket × SocketAddr)))

/-- `OscSocket::poll_next` (osc.rs): poll the inner `UdpSocketStream`
(`ready!` propagates `Pending`), then map the item through the decoder. -/
def osc_poll_next (decode : List Nat → Except OscError OscPacket)
    (s : UdpSocketStream) (pev : PollEv) :
    Option (UdpSocketStream × OscPoll) :=
  match poll_next s pev with
  | none => none
  | some (s', .pending) => some (s', .pending)
  | some (s', .ready item) => some (s', .ready (osc_map_item decode item))

/-- `check_len` (osc.rs): a transport-reported count different from the
encoded length is an `Interrupted` IO error. -/
def check_len (buf : List Nat) (len : Nat) : Except Error Unit :=
  if len ≠ buf.length then
    .error (.io { kind := .interrupted, msg := "UDP packet not fully sent" })
  else
    .ok ()

/-! ## message.rs -/

/-- Rust's `Into<OscType>` bound on argument values. -/
class IntoOscType (α : Type) where
  into : α → OscType

/-- `IntoOscArgs` (message.rs): conversion into `Vec<OscType>`. -/
class IntoOscArgs (α : Type) where
  into_osc_args : α → List OscType

export IntoOscArgs (into_osc_args)

/-- Rust's one-element tuple `(T1,)`, which has no Lean analogue. -/
structure Tuple1 (α : Type) where
  fst : α

/-- `impl IntoOscArgs for Vec<T> where T: Into<OscType>`. -/
instance instIntoOscArgsVec (α : Type) [IntoOscType α] : IntoOscArgs (List α) where
  into_osc_args l := l.map IntoOscType.into

/-- `impl IntoOscArgs for (T1,)`. -/
instance instIntoOscArgs1 (α : Type) [IntoOscType α] : IntoOscArgs (Tuple1 α) where
  into_osc_args t := [IntoOscType.into t.fst]

/-- `impl IntoOscArgs for (T1, T2)`. -/
instance instIntoOscArgs2 (α β : Type) [IntoOscType α] [IntoOscType β] :
    IntoOscArgs (α × β) where
  into_osc_args t := [IntoOscType.into t.1, IntoOscType.into t.2]

/-- `impl IntoOscArgs for (T1, T2, T3)`. -/
instance instIntoOscArgs3 (α β γ : Type) [IntoOscType α] [IntoOscType β] [IntoOscType γ] :
    IntoOscArgs (α × β × γ) where
  into_osc_args t := [IntoOscType.into t.1, IntoOscType.into t.2.1, IntoOscType.into t.2.2]

/-- `impl IntoOscArgs for OscType`. -/
instance instIntoOscArgsOscType : IntoOscArgs OscType where
  into_osc_args t := [t]

/-- `OscMessage::new` (message.rs): converts the args via `IntoOscArgs`
and the address via `ToString`. -/
def OscMessage.new {S T : Type} [ToString S] [IntoOscArgs T] (addr : S) (args : T) :
    OscMessage :=
  { addr := toString addr, args := into_osc_args args }

/-- `IntoOscMessage` (message.rs). -/
class IntoOscMessage (α : Type) where
  into_osc_message : α → OscMessage

export IntoOscMessage (into_osc_message)

/-- `impl IntoOscMessage for (S, A) where S: ToString, A: IntoOscArgs`. -/
instance instIntoOscMessagePair (S A : Type) [ToString S] [IntoOscArgs A] :
    IntoOscMessage (S × A) where
  into_osc_message t := OscMessage.new t.1 t.2

/-- `IntoOscPacket` (message.rs). -/
class IntoOscPacket (α : Type) where
  into_osc_packet : α → OscPacket

export IntoOscPacket (into_osc_packet)

/-- `impl IntoOscPacket for OscMessage`. -/
instance instIntoOscPacketMessage : IntoOscPacket OscMessage where
  into_osc_packet m := .message m

/-- `impl IntoOscPacket for OscBundle`. -/
instance instIntoOscPacketBundle : IntoOscPacket OscBundle where
  into_osc_packet b := .bundle b

/-- `impl IntoOscPacket for OscPacket`. -/
instance instIntoOscPacketPacket : IntoOscPacket OscPacket where
  into_osc_packet p := p

/-- `impl<T: IntoOscMessage> IntoOscPacket for T`: used at `send` call
sites for `(addr, args)` pairs. -/
def intoOscPacketOfMessage {α : Type} [IntoOscMessage α] (t : α) : OscPacket :=
  .message (into_osc_message t)

/-! ## Send path (osc.rs) -/

/-- `OscSocket::send` / `OscSender::send` (osc.rs): encode the packet
(`?` propagates the encode error as `Error::Osc`), transmit the encoded
bytes (`?` propagates the IO error), then `check_len`. The transport is
modelled as a function from the transmitted bytes to the reported byte
count. -/
def send {P : Type} [IntoOscPacket P]
    (encode : OscPacket → Except OscError (List Nat))
    (transport : List Nat → Except IoError Nat)
    (packet : P) : Except Error Unit :=
  match encode (into_osc_packet packet) with
  | .error e => .error (.osc e)
  | .ok buf =>
    match transport buf with
    | .error e => .error (.io e)
    | .ok n => check_len buf n

/-- `OscSocket::send_to` / `OscSender::send_to` (osc.rs): as `send`,
with an explicit destination address passed to the transport. -/
def send_to {P : Type} [IntoOscPacket P]
    (encode : OscPacket → Except OscError (List Nat))
    (transport : List Nat → SocketAddr → Except IoError Nat)
    (packet : P) (addrs : SocketAddr) : Except Error Unit :=
  match encode (into_osc_packet packet) with
  | .error e => .error (.osc e)
  | .ok buf =>
    match transport buf addrs with
    | .error e => .error (.io e)
    | .ok n => check_len buf n

/-! ## Concrete fixtures used to evaluate the definitions -/

/-- A concrete packet. -/
def pkt0 : OscPacket := .message { addr := "/ack", args := [.int 1] }

/-- A decoder that fails on every input. -/
def decFail : List Nat → Except OscError OscPacket :=
  fun _ => .error { msg := "bad" }

/-- A decoder that succeeds exactly on the byte string `[8]`. -/
def decSel : List Nat → Except OscError OscPacket :=
  fun l => if l = [8] then .ok pkt0 else .error { msg := "bad" }

/-- An encoder producing two fixed bytes. -/
def enc0 : OscPacket → Except OscError (List Nat) := fun _ => .ok [3, 4]

/-- An encoder that fails on every packet. -/
def encErr : OscPacket → Except OscError (List Nat) :=
  fun _ => .error { msg := "enc" }

/-- A concrete IO error. -/
def ioErr0 : IoError := { kind := .other, msg := "connection refused" }

/-! ## Helper lemmas -/

/-- A receive writes at most the buffer's length. -/
theorem recvLen_le (buf d : List Nat) : recvLen buf d ≤ buf.length :=
  Nat.min_le_right _ _

/-- Writing a datagram into the buffer preserves the buffer's length. -/
theorem recvWrite_length (buf d : List Nat) :
    (recvWrite buf d).length = buf.length := by
  simp only [recvWrite, recvLen, List.length_append, List.length_take, List.length_drop]
  omega

/-- A datagram no longer than the buffer is recovered whole by taking
`recvLen` bytes of the written buffer. -/
theorem recvWrite_take_of_le (buf d : List Nat) (h : d.length ≤ buf.length) :
    (recvWrite buf d).take (recvLen buf d) = d := by
  have hn : recvLen buf d = d.length := Nat.min_eq_left h
  simp only [recvWrite, hn, List.take_take, Nat.min_self]
  rw [List.take_append_of_le_length (by simp)]
  simp

/-- The copied-out item of a completed successful receive has length
`recvLen buf d`. -/
theorem recvWrite_take_length (buf d : List Nat) :
    ((recvWrite buf d).take (recvLen buf d)).length = recvLen buf d := by
  simp only [List.length_take, recvWrite_length]
  exact Nat.min_eq_left (recvLen_le buf d)

/-- Every completed `drive` yields a `some` item, never `none`. -/
theorem drive_snd (s : UdpSocketStream) (b : List Nat) (pev : PollEv) :
    (drive s b pev).2 = .pending ∨ ∃ it, (drive s b pev).2 = .ready (some it) := by
  cases pev with
  | pending => exact Or.inl rfl
  | ready ev =>
    cases ev with
    | err e => exact Or.inr ⟨.error e, rfl⟩
    | ok d a => exact Or.inr ⟨.ok ((recvWrite b d).take (recvLen b d), a), rfl⟩

/-- Shape of the successor states of `poll_next`: a poll either leaves
the state unchanged, clears the in-flight marker, or records the newly
started receive with the buffer checked out. -/
theorem poll_next_cases (s s' : UdpSocketStream) (pev : PollEv) (p : UdpPoll)
    (h : poll_next s pev = some (s', p)) :
    s' = s ∨ s'.fut = none ∨ ∃ b, s' = { fut := some b, buf := none } := by
  obtain ⟨fut, buf⟩ := s
  cases fut with
  | some b =>
    have hd : drive ⟨some b, buf⟩ b pev = (s', p) := by
      simpa [poll_next] using h
    cases pev with
    | pending =>
      simp only [drive] at hd
      injection hd with h1 h2
      exact Or.inl h1.symm
    | ready ev =>
      cases ev with
      | err e =>
        simp only [drive, recv_next] at hd
        injection hd with h1 h2
        subst h1
        exact Or.inr (Or.inl rfl)
      | ok d a =>
        simp only [drive, recv_next] at hd
        injection hd with h1 h2
        subst h1
        exact Or.inr (Or.inl rfl)
  | none =>
    cases buf with
    | none => simp [poll_next] at h
    | some b =>
      have hd : drive ⟨some b, none⟩ b pev = (s', p) := by
        simpa [poll_next] using h
      cases pev with
      | pending =>
        simp only [drive] at hd
        injection hd with h1 h2
        exact Or.inr (Or.inr ⟨b, h1.symm⟩)
      | ready ev =>
        cases ev with
        | err e =>
          simp only [drive, recv_next] at hd
          injection hd with h1 h2
          subst h1
          exact Or.inr (Or.inl rfl)
        | ok d a =>
          simp only [drive, recv_next] at hd
          injection hd with h1 h2
          subst h1
          exact Or.inr (Or.inl rfl)

/-- Buffers never change length across a completed poll: if every
buffer held by `s` (stored or checked out) has length `n`, the same
holds for the successor state. -/
theorem poll_next_buffer_length (n : Nat) (s s' : UdpSocketStream) (pev : PollEv)
    (p : UdpPoll) (h : poll_next s pev = some (s', p))
    (hbuf : ∀ b, s.buf = some b → b.length = n)
    (hfut : ∀ b, s.fut = some b → b.length = n) :
    (∀ b, s'.buf = some b → b.length = n) ∧
    (∀ b, s'.fut = some b → b.length = n) := by
  obtain ⟨fut, buf⟩ := s
  cases fut with
  | some b =>
    have hb : b.length = n := hfut b rfl
    have hd : drive ⟨some b, buf⟩ b pev = (s', p) := by
      simpa [poll_next] using h
    cases pev with
    | pending =>
      simp only [drive] at hd
      injection hd with h1 h2
      subst h1
      exact ⟨hbuf, hfut⟩
    | ready ev =>
      cases ev with
      | err e =>
        simp only [drive, recv_next] at hd
        injection hd with h1 h2
        subst h1
        exact ⟨hbuf, by intro b2 hb2; cases hb2⟩
      | ok d a =>
        simp only [drive, recv_next] at hd
        injection hd with h1 h2
        subst h1
        constructor
        · intro b2 hb2
          cases hb2
          rw [recvWrite_length]
          exact hb
        · intro b2 hb2; cases hb2
  | none =>
    cases buf with
    | none => simp [poll_next] at h
    | some b =>
      have hb : b.length = n := hbuf b rfl
      have hd : drive ⟨some b, none⟩ b pev = (s', p) := by
        simpa [poll_next] using h
      cases pev with
      | pending =>
        simp only [drive] at hd
        injection hd with h1 h2
        subst h1
        constructor
        · intro b2 hb2; cases hb2
        · intro b2 hb2; cases hb2; exact hb
      | ready ev =>
        cases ev with
        | err e =>
          simp only [drive, recv_next] at hd
          injection hd with h1 h2
          subst h1
          constructor
          · intro b2 hb2; cases hb2
          · intro b2 hb2; cases hb2
        | ok d a =>
          simp only [drive, recv_next] at hd
          injection hd with h1 h2
          subst h1
          constructor
          · intro b2 hb2
            cases hb2
            rw [recvWrite_length]
            exact hb
          · intro b2 hb2; cases hb2

/-- C1: the claim says that after an IO-error completion the stream
stays pollable — the next poll recreates a missing buffer, restarts a
receive, and does not panic.  The code does the opposite: polling
`from_arc` with an erroring receive yields the error item and leaves
`fut = none, buf = none`, and every subsequent `poll_next` hits
`self.buf.take().unwrap()` on `None`, i.e. panics (modelled as `none`:
no item, no state — the poll never completes). -/
theorem c1_poll_after_error_panics :
    poll_next from_arc (.ready (.err ioErr0)) =
      some ({ fut := none, buf := none }, .ready (some (.error ioErr0))) ∧
    (∀ pev, poll_next { fut := none, buf := none } pev = none) := by
  exact ⟨rfl, fun pev => rfl⟩

/-- C2 counterexample: the claim says a Decode-error stream item carries
the sender's address.  It does not: two datagrams with the same bytes
from two distinct sender addresses produce the *identical* error item
`Error.osc ⟨"bad"⟩`, which has no address component. -/
theorem c2_decode_error_item_has_no_addr :
    ({ ip := 1, port := 1 } : SocketAddr) ≠ { ip := 2, port := 2 } ∧
    osc_map_item decFail (some (.ok ([9], { ip := 1, port := 1 }))) =
      osc_map_item decFail (some (.ok ([9], { ip := 2, port := 2 }))) ∧
    osc_map_item decFail (some (.ok ([9], { ip := 1, port := 1 }))) =
      some (.error (.osc { msg := "bad" })) := by
  refine ⟨by decide, rfl, rfl⟩

/-- C2 amended: a datagram that fails to decode yields a stream item
carrying only the decode error (`Error::Osc`); the sender address is
dropped and not reported to the caller. -/
theorem c2_amended_decode_error_item (decode : List Nat → Except OscError OscPacket)
    (b : List Nat) (a : SocketAddr) (e : OscError) (hdec : decode b = .error e) :
    osc_map_item decode (some (.ok (b, a))) = some (.error (.osc e)) := by
  simp [osc_map_item, hdec, Except.mapError, Except.map]

/-- Witness for the amended C2 at a concrete input. -/
theorem c2_amended_witness :
    osc_map_item decFail (some (.ok ([9], { ip := 1, port := 1 }))) =
      some (.error (.osc { msg := "bad" })) :=
  c2_amended_decode_error_item decFail [9] { ip := 1, port := 1 } { msg := "bad" } rfl

/-- C10: every completed poll of `UdpSocketStream::poll_next` yields
`Some` item, never `None`; and the packet stream maps an end-of-stream
only to an end-of-stream, so it can end only through the inner stream's
unreachable `None` branch. -/
theorem c10_completed_poll_never_none (s s' : UdpSocketStream) (pev : PollEv)
    (r : Option (Except IoError (List Nat × SocketAddr)))
    (h : poll_next s pev = some (s', .ready r)) :
    (∃ item, r = some item) ∧
    (∀ decode, osc_map_item decode none = none) ∧
    (∀ decode item, osc_map_item decode item = none → item = none) := by
  refine ⟨?_, fun decode => rfl, ?_⟩
  · have key : ∀ (s0 : UdpSocketStream) (b : List Nat),
        drive s0 b pev = (s', .ready r) → ∃ it, r = some it := by
      intro s0 b hd
      rcases drive_snd s0 b pev with hp | ⟨it, hit⟩
      · rw [hd] at hp; cases hp
      · rw [hd] at hit
        exact ⟨it, by injection hit⟩
    obtain ⟨fut, buf⟩ := s
    cases fut with
    | some b =>
      exact key _ b (by simpa [poll_next] using h)
    | none =>
      cases buf with
      | none => simp [poll_next] at h
      | some b => exact key _ b (by simpa [poll_next] using h)
  · intro decode item hm
    cases item with
    | none => rfl
    | some x =>
      cases x with
      | error e => simp [osc_map_item] at hm
      | ok pa =>
        obtain ⟨bb, aa⟩ := pa
        simp [osc_map_item] at hm

/-- Witness for C10 at a concrete completed poll. -/
theorem c10_witness :
    (∃ item, (some (.error ioErr0) :
        Option (Except IoError (List Nat × SocketAddr))) = some item) ∧
    (∀ decode, osc_map_item decode none = none) ∧
    (∀ decode item, osc_map_item decode item = none → item = none) :=
  c10_completed_poll_never_none from_arc { fut := none, buf := none }
    (.ready (.err ioErr0)) (some (.error ioErr0)) rfl

/-- C3 counterexample: the claim asserts that at every reachable state
the buffer is checked out (absent from the stream) exactly while an
operation is in progress.  The state after an IO-error completion is
reachable and violates the biconditional: no operation is in progress
(`fut = none`) yet the stream holds no buffer (`buf = none` — the
buffer was dropped with the failed future, never checked back in). -/
theorem c3_checked_out_iff_fails :
    Reachable { fut := none, buf := none } ∧
    ¬ ((({ fut := none, buf := none } : UdpSocketStream).buf = none) ↔
        (({ fut := none, buf := none } : UdpSocketStream).fut.isSome = true)) := by
  constructor
  · exact Reachable.step from_arc { fut := none, buf := none }
      (.ready (.err ioErr0)) (.ready (some (.error ioErr0))) Reachable.init rfl
  · simp

/-- C3 amended: at every reachable state at most one receive operation
is in progress (`fut` holds at most one future by construction); while
one is in progress the buffer is checked out (not stored in the
stream); and polling while one is in progress starts no new operation
and leaves the state untouched.  The converse — that the buffer is
stored whenever no operation is in progress — fails after an IO error
(`c3_checked_out_iff_fails`). -/
theorem c3_amended_checkout_invariant (s : UdpSocketStream) (h : Reachable s) :
    (∀ b, s.fut = some b → s.buf = none) ∧
    (∀ b, s.fut = some b → poll_next s .pending = some (s, .pending)) := by
  constructor
  · induction h with
    | init =>
      intro b hb
      exact Option.noConfusion hb
    | step s s' pev p hr hstep ih =>
      rcases poll_next_cases s s' pev p hstep with heq | hfut | ⟨b, heq⟩
      · rw [heq]; exact ih
      · intro b hb; rw [hb] at hfut; cases hfut
      · intro b2 hb2; rw [heq]
  · intro b hb
    obtain ⟨fut, buf⟩ := s
    cases hb
    rfl

/-- Witness for the amended C3 at the reachable state with a receive in
flight (reached from `from_arc` by one pending poll). -/
theorem c3_amended_witness :
    (∀ b, ({ fut := some (List.replicate (1024 * 64) 0), buf := none } :
        UdpSocketStream).fut = some b →
      ({ fut := some (List.replicate (1024 * 64) 0), buf := none } :
        UdpSocketStream).buf = none) ∧
    (∀ b, ({ fut := some (List.replicate (1024 * 64) 0), buf := none } :
        UdpSocketStream).fut = some b →
      poll_next { fut := some (List.replicate (1024 * 64) 0), buf := none } .pending =
        some ({ fut := some (List.replicate (1024 * 64) 0), buf := none }, .pending)) :=
  c3_amended_checkout_invariant
    { fut := some (List.replicate (1024 * 64) 0), buf := none }
    (Reachable.step from_arc
      { fut := some (List.replicate (1024 * 64) 0), buf := none }
      .pending .pending Reachable.init rfl)

/-- C7: the receive buffer is created with fixed capacity
`1024 * 64 = 65536` bytes, every buffer held at any reachable state
(stored or checked out by the in-flight receive) still has exactly that
length, and a receive into a checked-out buffer fills at most `65536`
bytes and never grows the buffer. -/
theorem c7_buffer_capacity (s : UdpSocketStream) (h : Reachable s) :
    from_arc.buf = some (List.replicate (1024 * 64) 0) ∧
    (∀ b, s.buf = some b → b.length = 1024 * 64) ∧
    (∀ b, s.fut = some b → b.length = 1024 * 64) ∧
    (∀ b d, s.fut = some b →
      recvLen b d ≤ 1024 * 64 ∧ (recvWrite b d).length = 1024 * 64) := by
  have main : (∀ b, s.buf = some b → b.length = 1024 * 64) ∧
      (∀ b, s.fut = some b → b.length = 1024 * 64) := by
    induction h with
    | init =>
      constructor
      · intro b hb
        injection hb with h1
        rw [← h1, List.length_replicate]
      · intro b hb
        exact Option.noConfusion hb
    | step s s' pev p hr hstep ih =>
      exact poll_next_buffer_length (1024 * 64) s s' pev p hstep ih.1 ih.2
  refine ⟨rfl, main.1, main.2, ?_⟩
  intro b d hb
  have hlen : b.length = 1024 * 64 := main.2 b hb
  constructor
  · rw [← hlen]; exact recvLen_le b d
  · rw [recvWrite_length, hlen]

/-- Witness for C7 at the initial state. -/
theorem c7_witness :
    from_arc.buf = some (List.replicate (1024 * 64) 0) ∧
    (∀ b, from_arc.buf = some b → b.length = 1024 * 64) ∧
    (∀ b, from_arc.fut = some b → b.length = 1024 * 64) ∧
    (∀ b d, from_arc.fut = some b →
      recvLen b d ≤ 1024 * 64 ∧ (recvWrite b d).length = 1024 * 64) :=
  c7_buffer_capacity from_arc Reachable.init

/-- C5: a successful receive completion on a checked-out (or
about-to-be-checked-out) buffer `b` yields a fresh vector holding
exactly the first `recvLen b d` bytes of the written buffer (its length
is exactly the reported count), paired with the sender address, and
stores the written buffer — whose length is unchanged, so no new
allocation happens — back for the next receive. -/
theorem c5_success_copies_and_reuses (s : UdpSocketStream) (b d : List Nat)
    (a : SocketAddr)
    (h : s.fut = some b ∨ (s.fut = none ∧ s.buf = some b)) :
    poll_next s (.ready (.ok d a)) =
      some ({ fut := none, buf := some (recvWrite b d) },
            .ready (some (.ok ((recvWrite b d).take (recvLen b d), a)))) ∧
    ((recvWrite b d).take (recvLen b d)).length = recvLen b d ∧
    (recvWrite b d).length = b.length := by
  refine ⟨?_, recvWrite_take_length b d, recvWrite_length b d⟩
  obtain ⟨fut, buf⟩ := s
  rcases h with hf | ⟨hf, hb⟩
  · cases hf; rfl
  · cases hf; cases hb; rfl

/-- Witness for C5 at a concrete idle state and datagram. -/
theorem c5_witness :
    poll_next { fut := none, buf := some [0, 0, 0] }
        (.ready (.ok [1, 2] { ip := 1, port := 2 })) =
      some ({ fut := none, buf := some (recvWrite [0, 0, 0] [1, 2]) },
            .ready (some (.ok ((recvWrite [0, 0, 0] [1, 2]).take
              (recvLen [0, 0, 0] [1, 2]), { ip := 1, port := 2 })))) ∧
    ((recvWrite [0, 0, 0] [1, 2]).take (recvLen [0, 0, 0] [1, 2])).length =
      recvLen [0, 0, 0] [1, 2] ∧
    (recvWrite [0, 0, 0] [1, 2]).length = ([0, 0, 0] : List Nat).length :=
  c5_success_copies_and_reuses { fut := none, buf := some [0, 0, 0] }
    [0, 0, 0] [1, 2] { ip := 1, port := 2 } (Or.inr ⟨rfl, rfl⟩)

/-- C8: when the inner stream yields bytes `b` from sender `a` and the
external decoder accepts `b` as packet `p`, `OscSocket::poll_next`
yields `(p, a)`; and the adapter maps an end-of-stream of the inner
stream to an end-of-stream of the packet stream. -/
theorem c8_decode_success_and_eos (decode : List Nat → Except OscError OscPacket)
    (s s' : UdpSocketStream) (pev : PollEv) (b : List Nat) (a : SocketAddr)
    (p : OscPacket) (hdec : decode b = .ok p) :
    (poll_next s pev = some (s', .ready (some (.ok (b, a)))) →
      osc_poll_next decode s pev = some (s', .ready (some (.ok (p, a))))) ∧
    osc_map_item decode none = none := by
  refine ⟨?_, rfl⟩
  intro hp
  simp [osc_poll_next, hp, osc_map_item, hdec, Except.mapError, Except.map]

/-- Witness for C8: a concrete well-formed datagram is decoded and
delivered with its sender address. -/
theorem c8_witness :
    osc_poll_next decSel { fut := none, buf := some [0] }
        (.ready (.ok [8] { ip := 3, port := 4 })) =
      some ({ fut := none, buf := some [8] },
            .ready (some (.ok (pkt0, { ip := 3, port := 4 })))) :=
  (c8_decode_success_and_eos decSel { fut := none, buf := some [0] }
    { fut := none, buf := some [8] } (.ready (.ok [8] { ip := 3, port := 4 }))
    [8] { ip := 3, port := 4 } pkt0 rfl).1 rfl

/-- C6: a malformed datagram surfaces as a decode-error item, and the
immediately following well-formed datagram is still decoded and
delivered as a success item with its sender address — the decode
failure neither ends the stream nor corrupts the next receive. -/
theorem c6_malformed_then_wellformed (decode : List Nat → Except OscError OscPacket)
    (b d1 d2 : List Nat) (a1 a2 : SocketAddr) (e : OscError) (p : OscPacket)
    (h1 : d1.length ≤ b.length) (h2 : d2.length ≤ b.length)
    (hdec1 : decode d1 = .error e) (hdec2 : decode d2 = .ok p) :
    osc_poll_next decode { fut := none, buf := some b } (.ready (.ok d1 a1)) =
      some ({ fut := none, buf := some (recvWrite b d1) },
            .ready (some (.error (.osc e)))) ∧
    osc_poll_next decode { fut := none, buf := some (recvWrite b d1) }
        (.ready (.ok d2 a2)) =
      some ({ fut := none, buf := some (recvWrite (recvWrite b d1) d2) },
            .ready (some (.ok (p, a2)))) := by
  have e1 : (recvWrite b d1).take (recvLen b d1) = d1 := recvWrite_take_of_le b d1 h1
  have h2b : d2.length ≤ (recvWrite b d1).length := by
    rw [recvWrite_length]; exact h2
  have e2 : (recvWrite (recvWrite b d1) d2).take (recvLen (recvWrite b d1) d2) = d2 :=
    recvWrite_take_of_le _ _ h2b
  constructor
  · simp [osc_poll_next, poll_next, drive, recv_next, osc_map_item, e1, hdec1,
      Except.mapError, Except.map]
  · simp [osc_poll_next, poll_next, drive, recv_next, osc_map_item, e2, hdec2,
      Except.mapError, Except.map]

/-- Witness for C6 on concrete datagrams `[9]` (malformed) then `[8]`
(well-formed). -/
theorem c6_witness :
    osc_poll_next decSel { fut := none, buf := some [0] }
        (.ready (.ok [9] { ip := 1, port := 1 })) =
      some ({ fut := none, buf := some (recvWrite [0] [9]) },
            .ready (some (.error (.osc { msg := "bad" })))) ∧
    osc_poll_next decSel { fut := none, buf := some (recvWrite [0] [9]) }
        (.ready (.ok [8] { ip := 2, port := 2 })) =
      some ({ fut := none, buf := some (recvWrite (recvWrite [0] [9]) [8]) },
            .ready (some (.ok (pkt0, { ip := 2, port := 2 })))) :=
  c6_malformed_then_wellformed decSel [0] [9] [8] { ip := 1, port := 1 }
    { ip := 2, port := 2 } { msg := "bad" } pkt0 (by decide) (by decide) rfl rfl

/-- C4: for `send` and `send_to` (shared by `OscSocket` and
`OscSender`): an encode failure is returned as the encode error;
otherwise the encoded bytes are handed to the transport, the call
returns `Ok` iff the transport-reported count equals the encoded
length, and a short count yields the synthetic Interrupted IO error. -/
theorem c4_send_contract {P : Type} [IntoOscPacket P]
    (encode : OscPacket → Except OscError (List Nat))
    (transport : List Nat → Except IoError Nat)
    (transportTo : List Nat → SocketAddr → Except IoError Nat)
    (packet : P) (addr : SocketAddr) :
    (∀ e, encode (into_osc_packet packet) = .error e →
      send encode transport packet = .error (.osc e) ∧
      send_to encode transportTo packet addr = .error (.osc e)) ∧
    (∀ buf n, encode (into_osc_packet packet) = .ok buf → transport buf = .ok n →
      ((send encode transport packet = .ok () ↔ n = buf.length) ∧
       (n < buf.length →
         send encode transport packet =
           .error (.io { kind := .interrupted, msg := "UDP packet not fully sent" })))) ∧
    (∀ buf n, encode (into_osc_packet packet) = .ok buf → transportTo buf addr = .ok n →
      ((send_to encode transportTo packet addr = .ok () ↔ n = buf.length) ∧
       (n < buf.length →
         send_to encode transportTo packet addr =
           .error (.io { kind := .interrupted, msg := "UDP packet not fully sent" })))) := by
  refine ⟨?_, ?_, ?_⟩
  · intro e he
    constructor
    · simp [send, he]
    · simp [send_to, he]
  · intro buf n he ht
    constructor
    · rcases eq_or_ne n buf.length with hn | hn
      · simp [send, he, ht, check_len, hn]
      · simp [send, he, ht, check_len, hn]
    · intro hlt
      simp [send, he, ht, check_len, Nat.ne_of_lt hlt]
  · intro buf n he ht
    constructor
    · rcases eq_or_ne n buf.length with hn | hn
      · simp [send_to, he, ht, check_len, hn]
      · simp [send_to, he, ht, check_len, hn]
    · intro hlt
      simp [send_to, he, ht, check_len, Nat.ne_of_lt hlt]

/-- Witness for C4: a failing encoder propagates its error; a full send
succeeds; a short send fails with the Interrupted IO error, on both
`send` and `send_to`. -/
theorem c4_witness :
    send encErr (fun _ => .ok 2) pkt0 = .error (.osc { msg := "enc" }) ∧
    send enc0 (fun _ => .ok 2) pkt0 = .ok () ∧
    send enc0 (fun _ => .ok 1) pkt0 =
      .error (.io { kind := .interrupted, msg := "UDP packet not fully sent" }) ∧
    send_to enc0 (fun _ _ => .ok 1) pkt0 { ip := 1, port := 1 } =
      .error (.io { kind := .interrupted, msg := "UDP packet not fully sent" }) :=
  ⟨((c4_send_contract encErr (fun _ => .ok 2) (fun _ _ => .ok 2) pkt0
      { ip := 1, port := 1 }).1 { msg := "enc" } rfl).1,
   ((c4_send_contract enc0 (fun _ => .ok 2) (fun _ _ => .ok 2) pkt0
      { ip := 1, port := 1 }).2.1 [3, 4] 2 rfl rfl).1.mpr rfl,
   ((c4_send_contract enc0 (fun _ => .ok 1) (fun _ _ => .ok 1) pkt0
      { ip := 1, port := 1 }).2.1 [3, 4] 1 rfl rfl).2 (by decide),
   ((c4_send_contract enc0 (fun _ => .ok 1) (fun _ _ => .ok 1) pkt0
      { ip := 1, port := 1 }).2.2 [3, 4] 1 rfl rfl).2 (by decide)⟩

/-- C9: the conversion layer maps 1-, 2- and 3-tuples (and explicit
sequences, and a bare typed value) of convertible values to the
argument list of exactly those values converted in order; an
address-convertible value paired with such a group becomes a `Message`
with that address string and those arguments; a bare `Message` or
`Bundle` passes through unchanged into the packet sent, and a `Packet`
is the identity. -/
theorem c9_conversion_layer :
    (∀ (α : Type) [IntoOscType α] (a : α),
        into_osc_args (Tuple1.mk a) = [IntoOscType.into a]) ∧
    (∀ (α β : Type) [IntoOscType α] [IntoOscType β] (a : α) (b : β),
        into_osc_args (a, b) = [IntoOscType.into a, IntoOscType.into b]) ∧
    (∀ (α β γ : Type) [IntoOscType α] [IntoOscType β] [IntoOscType γ]
        (a : α) (b : β) (c : γ),
        into_osc_args (a, b, c) =
          [IntoOscType.into a, IntoOscType.into b, IntoOscType.into c]) ∧
    (∀ (α : Type) [IntoOscType α] (l : List α),
        into_osc_args l = l.map IntoOscType.into) ∧
    (∀ t : OscType, into_osc_args t = [t]) ∧
    (∀ (S A : Type) [ToString S] [IntoOscArgs A] (s : S) (args : A),
        into_osc_message (s, args) =
          { addr := toString s, args := into_osc_args args }) ∧
    (∀ m : OscMessage, into_osc_packet m = .message m) ∧
    (∀ b : OscBundle, into_osc_packet b = .bundle b) ∧
    (∀ p : OscPacket, into_osc_packet p = p) ∧
    (∀ (α : Type) [IntoOscMessage α] (t : α),
        intoOscPacketOfMessage t = .message (into_osc_message t)) := by
  refine ⟨fun α _ a => rfl, fun α β _ _ a b => rfl, fun α β γ _ _ _ a b c => rfl,
    fun α _ l => rfl, fun t => rfl, fun S A _ _ s args => rfl, fun m => rfl,
    fun b => rfl, fun p => rfl, fun α _ t => rfl⟩

end AsyncOsc
